import Mathlib

/-!
Verification of the aliasing-bypass cell from `src/multimut.rs` and
`src/multiref.rs` of Rust-PhoLib.

The Rust source wraps one value in an `UnsafeCell<T>` and hands out raw
references to that single storage location:

* `MultiMut::new(object)` stores `object` in the cell (`MultiMut(object.into())`);
* `MultiMut::get_ref(&self)` returns `& *self.0.get()`, a shared pointer to the
  one storage location;
* `MultiMut::get_mut(&self)` returns `&mut *self.0.get()`, a mutable pointer to
  the same storage location;
* `MultiMut::unwrap(self)` returns `self.0.into_inner()`, moving the value out
  and consuming the cell.

Shallow embedding: the cell's state is the content of its single storage
location.  A reference (shared or mutable) issued by `get_ref`/`get_mut` is a
pointer to that location; since every reference from one cell is the same
pointer `self.0.get()`, a handle is modelled as a bare label (`Nat`) and both
dereferencing and writing ignore the label — all handles alias the one
location.  `MultiRef` is embedded separately, mirroring its own (textually
identical) source.  The consuming nature of `unwrap` is modelled by a lifecycle
transition relation `LifeStep` in which transitions exist only out of live
cells.
-/

/-- `MultiMut<T>` from `src/multimut.rs`: a single `UnsafeCell<T>` storage
location holding one value of type `T`.  The field `cell` is the current
content of that location. -/
structure MultiMut (T : Type) where
  cell : T
deriving Repr, DecidableEq

/-- `MultiMut::new(object) = MultiMut(object.into())`: wrap the value. -/
def MultiMut.new {T : Type} (object : T) : MultiMut T :=
  MultiMut.mk object

/-- `MultiMut::unwrap(self) = self.0.into_inner()`: move the wrapped value out
of the storage location. -/
def MultiMut.unwrap {T : Type} (m : MultiMut T) : T :=
  m.cell

/-- Dereference (`*r`) through a reference handle issued by `get_ref` or
`get_mut`.  Every handle is the pointer `self.0.get()` to the single storage
location, so the handle label is irrelevant to the value read. -/
def MultiMut.read {T : Type} (m : MultiMut T) (_h : Nat) : T :=
  m.cell

/-- Write (`*r = f (*r)`) through a mutable reference handle issued by
`get_mut`.  Every mutable handle points at the single storage location, so the
write updates that one location whatever the handle label is. -/
def MultiMut.write {T : Type} (m : MultiMut T) (_h : Nat) (f : T → T) : MultiMut T :=
  MultiMut.mk (f m.cell)

/-- One event in the life of a cell: issue a shared reference labelled `h`
(`get_ref`), issue a mutable reference labelled `h` (`get_mut`), or mutate the
value through the mutable reference labelled `h`. -/
inductive Event (T : Type) where
  | getRef : Nat → Event T
  | getMut : Nat → Event T
  | write : Nat → (T → T) → Event T

/-- Effect of one event on the cell: `get_ref` and `get_mut` only mint
pointers (`& *self.0.get()`, `&mut *self.0.get()`) and touch nothing; a write
through any mutable handle updates the single storage location. -/
def MultiMut.stepEvent {T : Type} (m : MultiMut T) : Event T → MultiMut T
  | Event.getRef _ => m
  | Event.getMut _ => m
  | Event.write h f => m.write h f

/-- Run a finite sequence of events, in temporal order, on the cell. -/
def MultiMut.runTrace {T : Type} (m : MultiMut T) (tr : List (Event T)) : MultiMut T :=
  tr.foldl MultiMut.stepEvent m

/-- The specification-side reference value: apply the mutations of a trace, in
temporal order, to a single storage location initially holding `v`; reference
issuance does not change the value. -/
def writesFold {T : Type} (v : T) (tr : List (Event T)) : T :=
  tr.foldl (fun a e =>
    match e with
    | Event.write _ f => f a
    | _ => a) v

/-- `true` iff the event is a `get_ref` issuance. -/
def isGetRef {T : Type} : Event T → Bool
  | Event.getRef _ => true
  | _ => false

/-- Writes in the trace go only through mutable-handle labels already issued
by a `get_mut` event (`issued` collects the labels issued so far). -/
def mutIssued {T : Type} (issued : List Nat) : List (Event T) → Bool
  | [] => true
  | Event.getRef _ :: rest => mutIssued issued rest
  | Event.getMut h :: rest => mutIssued (h :: issued) rest
  | Event.write h _ :: rest => issued.contains h && mutIssued issued rest

/-- A trace is well formed when every write goes through a mutable handle that
an earlier `get_mut` event of the same trace issued. -/
def wellFormed {T : Type} (tr : List (Event T)) : Bool :=
  mutIssued [] tr

/-- `MultiRef<T>` from `src/multiref.rs`: the second named variant, again a
single `UnsafeCell<T>` storage location holding one value. -/
structure MultiRef (T : Type) where
  cell : T
deriving Repr, DecidableEq

/-- `MultiRef::new(object) = MultiRef(object.into())`. -/
def MultiRef.new {T : Type} (object : T) : MultiRef T :=
  MultiRef.mk object

/-- `MultiRef::unwrap(self) = self.0.into_inner()`. -/
def MultiRef.unwrap {T : Type} (m : MultiRef T) : T :=
  m.cell

/-- Dereference through a handle issued by `MultiRef::get_ref`/`get_mut`. -/
def MultiRef.read {T : Type} (m : MultiRef T) (_h : Nat) : T :=
  m.cell

/-- Write through a mutable handle issued by `MultiRef::get_mut`. -/
def MultiRef.write {T : Type} (m : MultiRef T) (_h : Nat) (f : T → T) : MultiRef T :=
  MultiRef.mk (f m.cell)

/-- Effect of one event on a `MultiRef` cell. -/
def MultiRef.stepEvent {T : Type} (m : MultiRef T) : Event T → MultiRef T
  | Event.getRef _ => m
  | Event.getMut _ => m
  | Event.write h f => m.write h f

/-- Run a finite sequence of events on a `MultiRef` cell. -/
def MultiRef.runTrace {T : Type} (m : MultiRef T) (tr : List (Event T)) : MultiRef T :=
  tr.foldl MultiRef.stepEvent m

/-- The evident renaming between the two variants. -/
def MultiRef.toMultiMut {T : Type} (m : MultiRef T) : MultiMut T :=
  MultiMut.mk m.cell

/-- Lifecycle state of a cell: either live with some content, or consumed by
`unwrap`, which yielded the wrapped value. -/
inductive Life (T : Type) where
  | live : MultiMut T → Life T
  | consumed : T → Life T

/-- An operation invoked on a cell: one of the reference events, or the
consuming `unwrap`. -/
inductive LifeOp (T : Type) where
  | ev : Event T → LifeOp T
  | unwrapOp : LifeOp T

/-- Lifecycle transitions.  Events step a live cell to a live cell; `unwrap`
steps a live cell to the consumed state carrying the moved-out value.  No
constructor has a `consumed` source: ownership transfer leaves no cell on
which a further operation could be invoked. -/
inductive LifeStep {T : Type} : Life T → LifeOp T → Life T → Prop where
  | evStep (m : MultiMut T) (e : Event T) :
      LifeStep (Life.live m) (LifeOp.ev e) (Life.live (m.stepEvent e))
  | unwrapStep (m : MultiMut T) :
      LifeStep (Life.live m) LifeOp.unwrapOp (Life.consumed m.unwrap)

/-- The record type of the struct-mutation scenario: `struct Test { a : i32,
b : bool }` from the tests of `src/multimut.rs`. -/
structure TestRec where
  a : Int
  b : Bool
deriving Repr, DecidableEq

/-- A sample well-formed trace: two mutable references issued by `get_mut`,
each written through once. -/
def sampleTrace : List (Event Nat) :=
  [Event.getMut 0, Event.write 0 (fun a => a + 1),
    Event.getMut 1, Event.write 1 (fun a => a * 2)]

theorem MultiMut.runTrace_cell {T : Type} (m : MultiMut T) (tr : List (Event T)) :
    (m.runTrace tr).cell = writesFold m.cell tr := by
  induction tr generalizing m with
  | nil => rfl
  | cons e rest ih =>
    cases e with
    | getRef h => simpa [MultiMut.runTrace, MultiMut.stepEvent, writesFold] using ih m
    | getMut h => simpa [MultiMut.runTrace, MultiMut.stepEvent, writesFold] using ih m
    | write h f =>
      simpa [MultiMut.runTrace, MultiMut.stepEvent, MultiMut.write, writesFold]
        using ih (MultiMut.mk (f m.cell))

theorem MultiRef.toMultiMut_stepEvent {T : Type} (m : MultiRef T) (e : Event T) :
    (m.stepEvent e).toMultiMut = m.toMultiMut.stepEvent e := by
  cases e <;> rfl

theorem MultiRef.toMultiMut_runTrace {T : Type} (m : MultiRef T) (tr : List (Event T)) :
    (m.runTrace tr).toMultiMut = m.toMultiMut.runTrace tr := by
  induction tr generalizing m with
  | nil => rfl
  | cons e rest ih =>
    simpa [MultiRef.runTrace, MultiMut.runTrace, MultiRef.toMultiMut_stepEvent m e]
      using ih (m.stepEvent e)

theorem writesFold_map_write {T : Type} (v : T) (j : Nat) (fs : List (T → T)) :
    writesFold v (fs.map (Event.write j)) = fs.foldl (fun a f => f a) v := by
  induction fs generalizing v with
  | nil => rfl
  | cons f rest ih => simpa [writesFold, List.map] using ih (f v)

/-- Claim C1: for every initial value and every well-formed finite sequence of
events in which mutations go through mutable references issued by `get_mut`
from the same cell, `unwrap` returns the result of applying the mutations in
temporal order to the single storage location; moreover a write through any
mutable reference is immediately visible through every reference from the same
cell. -/
theorem unwrap_runTrace_aliases {T : Type} (v : T) (tr : List (Event T))
    (_hwf : wellFormed tr = true) :
    ((MultiMut.new v).runTrace tr).unwrap = writesFold v tr ∧
    ∀ (m : MultiMut T) (i j : Nat) (f : T → T),
      (m.stepEvent (Event.write i f)).read j = f (m.read j) := by
  refine ⟨?_, ?_⟩
  · simpa [MultiMut.unwrap, MultiMut.new] using MultiMut.runTrace_cell (MultiMut.new v) tr
  · intro m i j f
    rfl

theorem unwrap_runTrace_aliases_witness :
    wellFormed sampleTrace = true ∧
      ((MultiMut.new 3).runTrace sampleTrace).unwrap = writesFold 3 sampleTrace :=
  ⟨rfl, (unwrap_runTrace_aliases 3 sampleTrace rfl).1⟩

/-- Claim C2: for every value `v`, extracting immediately after construction
returns `v`: `(MultiMut.new v).unwrap = v`, with no mutation in between. -/
theorem unwrap_new {T : Type} (v : T) : (MultiMut.new v).unwrap = v :=
  rfl

/-- Claim C3: an immutable reference obtained via `get_ref` before a mutable
reference is issued observes every subsequent mutation performed through that
later mutable reference: reading through the earlier immutable handle after
the writes yields the mutated value, not a snapshot taken at `get_ref`
time. -/
theorem get_ref_sees_later_mut {T : Type} (m : MultiMut T) (i j : Nat)
    (fs : List (T → T)) :
    (((m.stepEvent (Event.getRef i)).stepEvent (Event.getMut j)).runTrace
        (fs.map (Event.write j))).read i =
      fs.foldl (fun a f => f a) (m.read i) := by
  have h1 : (m.stepEvent (Event.getRef i)).stepEvent (Event.getMut j) = m := rfl
  rw [h1]
  have h2 := MultiMut.runTrace_cell m (fs.map (Event.write j))
  simpa [MultiMut.read, writesFold_map_write] using h2

/-- Claim C4: `MultiMut` and `MultiRef` are the same entity: the renaming
`MultiRef.toMultiMut` identifies their constructions, and every sequence of
`new`, `get_ref`, `get_mut`, write and `unwrap` operations produces identical
results on the two types. -/
theorem multiRef_multiMut_same {T : Type} (v : T) (tr : List (Event T)) (h : Nat)
    (r : MultiRef T) (f : T → T) :
    (MultiRef.new v).toMultiMut = MultiMut.new v ∧
    r.unwrap = r.toMultiMut.unwrap ∧
    r.read h = r.toMultiMut.read h ∧
    (r.write h f).toMultiMut = r.toMultiMut.write h f ∧
    ((MultiRef.new v).runTrace tr).unwrap = ((MultiMut.new v).runTrace tr).unwrap ∧
    ((MultiRef.new v).runTrace tr).read h = ((MultiMut.new v).runTrace tr).read h := by
  refine ⟨rfl, rfl, rfl, rfl, ?_, ?_⟩
  · have h1 := MultiRef.toMultiMut_runTrace (MultiRef.new v) tr
    calc ((MultiRef.new v).runTrace tr).unwrap
        = ((MultiRef.new v).runTrace tr).toMultiMut.unwrap := rfl
      _ = ((MultiMut.new v).runTrace tr).unwrap := by rw [h1]; exact rfl
  · have h1 := MultiRef.toMultiMut_runTrace (MultiRef.new v) tr
    calc ((MultiRef.new v).runTrace tr).read h
        = ((MultiRef.new v).runTrace tr).toMultiMut.read h := rfl
      _ = ((MultiMut.new v).runTrace tr).read h := by rw [h1]; exact rfl

/-- Claim C5: any sequence consisting only of `get_ref` issuances (and reads
through the returned references) leaves the stored value unchanged. -/
theorem get_ref_frame {T : Type} (m : MultiMut T) (tr : List (Event T))
    (h : tr.all isGetRef = true) : m.runTrace tr = m := by
  induction tr generalizing m with
  | nil => rfl
  | cons e rest ih =>
    cases e with
    | getRef i =>
      simp only [List.all_cons, Bool.and_eq_true] at h
      simpa [MultiMut.runTrace, MultiMut.stepEvent] using ih m h.2
    | getMut i => simp [isGetRef] at h
    | write i f => simp [isGetRef] at h

theorem get_ref_frame_witness :
    ([Event.getRef 0, Event.getRef 1] : List (Event Nat)).all isGetRef = true ∧
      (MultiMut.new 7).runTrace [Event.getRef 0, Event.getRef 1] = MultiMut.new 7 :=
  ⟨rfl, get_ref_frame (MultiMut.new 7) [Event.getRef 0, Event.getRef 1] rfl⟩

/-- Claim C6: none of the four operations can fail, error or panic: each
embedded operation is a total function producing a result for every cell and
every value, with no `Option`/`Except` error branch, on both variants. -/
theorem ops_total {T : Type} (v : T) (m : MultiMut T) (r : MultiRef T) (h : Nat)
    (f : T → T) (e : Event T) :
    (∃ c : MultiMut T, MultiMut.new v = c) ∧
    (∃ t : T, m.unwrap = t) ∧
    (∃ t : T, m.read h = t) ∧
    (∃ c : MultiMut T, m.write h f = c) ∧
    (∃ c : MultiMut T, m.stepEvent e = c) ∧
    (∃ c : MultiRef T, MultiRef.new v = c) ∧
    (∃ t : T, r.unwrap = t) ∧
    (∃ t : T, r.read h = t) ∧
    (∃ c : MultiRef T, r.write h f = c) ∧
    (∃ c : MultiRef T, r.stepEvent e = c) :=
  ⟨⟨_, rfl⟩, ⟨_, rfl⟩, ⟨_, rfl⟩, ⟨_, rfl⟩, ⟨_, rfl⟩,
    ⟨_, rfl⟩, ⟨_, rfl⟩, ⟨_, rfl⟩, ⟨_, rfl⟩, ⟨_, rfl⟩⟩

/-- Claim C7: `unwrap` consumes the cell, stepping a live cell to the consumed
state carrying the moved-out value, and every lifecycle transition starts from
a live cell — so no `get_ref`, `get_mut` or `unwrap` step can follow an
`unwrap` step on the same cell. -/
theorem unwrap_consumes {T : Type} :
    (∀ m : MultiMut T,
      LifeStep (Life.live m) LifeOp.unwrapOp (Life.consumed m.unwrap)) ∧
    ∀ (l l' : Life T) (o : LifeOp T), LifeStep l o l' → ∃ m, l = Life.live m := by
  refine ⟨fun m => LifeStep.unwrapStep m, ?_⟩
  intro l l' o hstep
  cases hstep with
  | evStep m e => exact ⟨m, rfl⟩
  | unwrapStep m => exact ⟨m, rfl⟩

theorem unwrap_consumes_witness :
    LifeStep (Life.live (MultiMut.new (5 : Nat))) LifeOp.unwrapOp
        (Life.consumed (MultiMut.new (5 : Nat)).unwrap) ∧
      ∃ m, Life.live (MultiMut.new (5 : Nat)) = Life.live m :=
  ⟨(@unwrap_consumes Nat).1 (MultiMut.new 5),
    (@unwrap_consumes Nat).2 (Life.live (MultiMut.new 5))
      (Life.consumed (MultiMut.new (5 : Nat)).unwrap) LifeOp.unwrapOp
      ((@unwrap_consumes Nat).1 (MultiMut.new 5))⟩

/-- Claim C8: constructing with `10`, obtaining one immutable and one mutable
reference, and adding `3` through the mutable one makes both the already-held
immutable reference and a freshly obtained mutable reference read `13`. -/
theorem scenario_int_thirteen :
    ((MultiMut.new (10 : Int)).runTrace
        [Event.getRef 0, Event.getMut 1, Event.write 1 (fun a => a + 3)]).read 0 = 13 ∧
    ((MultiMut.new (10 : Int)).runTrace
        [Event.getRef 0, Event.getMut 1, Event.write 1 (fun a => a + 3),
          Event.getMut 2]).read 2 = 13 :=
  ⟨rfl, rfl⟩

/-- Claim C9: constructing with the record `{a := 1, b := false}`, obtaining
three mutable references `x, y, z` and applying `x.a += 10`, `y.b = true`,
`z.a += 7`, then extracting, yields `{a := 18, b := true}`. -/
theorem scenario_struct_mut :
    ((MultiMut.new (TestRec.mk 1 false)).runTrace
        [Event.getMut 0, Event.getMut 1, Event.getMut 2,
          Event.write 0 (fun t => TestRec.mk (t.a + 10) t.b),
          Event.write 1 (fun t => TestRec.mk t.a true),
          Event.write 2 (fun t => TestRec.mk (t.a + 7) t.b)]).unwrap
      = TestRec.mk 18 true :=
  rfl

/-- Claim C10: construction stores the supplied value unaltered, and both
`get_ref` and `get_mut` expose it without modifying it: on a fresh cell
`new v`, reading through either kind of reference yields `v`, and the
issuance itself leaves the stored value equal to `v`. -/
theorem new_read_id {T : Type} (v : T) (i : Nat) :
    ((MultiMut.new v).stepEvent (Event.getRef i)).read i = v ∧
    ((MultiMut.new v).stepEvent (Event.getMut i)).read i = v ∧
    (MultiMut.new v).stepEvent (Event.getRef i) = MultiMut.new v ∧
    (MultiMut.new v).stepEvent (Event.getMut i) = MultiMut.new v :=
  ⟨rfl, rfl, rfl, rfl⟩
